import Mathlib

/-!
A shallow embedding of the AQUA-TRACE browser client (TypeScript sources under
src/) together with theorems about its data model and operations.

Conventions used throughout:
* JS strings are embedded as Lean `String`; the UTF-agnostic prefix test
  `String.prototype.startsWith` acts on the code-point list.
* Byte buffers are `List Nat` (entries below 256 where it matters), 16-bit
  samples are `Int` with explicit two's-complement conversion, and the
  floating-point scaling by 32768.0 is embedded in `ℚ` (an Int16 value divided
  by 2^15 is exactly representable in binary floating point, so nothing is
  lost by working in `ℚ`).
* Fallible operations (thrown JS exceptions, rejected promises) return
  `Except String`.
-/

/-- Risk levels, from src/types.ts `RiskLevel`. -/
inductive RiskLevel where
  | low | medium | high | unknown
  deriving DecidableEq

/-- Confidence levels, from src/types.ts `ConfidenceLevel`. -/
inductive ConfidenceLevel where
  | low | moderate | high
  deriving DecidableEq

/-- The structured report, from src/types.ts `AnalysisReport`. -/
structure AnalysisReport where
  observedIndicators : List String
  likelyPollutionCategory : String
  environmentalImpactExplanation : String
  humanHealthImplications : String
  environmentalRiskLevel : RiskLevel
  riskJustification : String
  recommendedImmediateActions : List String
  confidenceLevel : ConfidenceLevel
  assessmentLimitations : List String
  deriving DecidableEq

/-- A grounding citation, from src/types.ts `GroundingSource`. -/
structure GroundingSource where
  title : Option String
  uri : Option String
  deriving DecidableEq

/-- The session status enumeration, from src/types.ts `AnalysisState.status`. -/
inductive Status where
  | idle | analyzing | complete | error
  deriving DecidableEq

/-- The mutable session record, from src/types.ts `AnalysisState`. -/
structure AnalysisState where
  status : Status
  data : Option AnalysisReport
  resources : Option String
  sources : List GroundingSource
  error : Option String
  deriving DecidableEq

/-- The initial session value used by `useState` and by `reset` in
src/App.tsx. -/
def initialAnalysisState : AnalysisState :=
  { status := .idle, data := none, resources := none, sources := [], error := none }

/-- A captured media blob: src/App.tsx works with a JS `File`, of which only
the MIME type and the (opaque) blob identity are ever consulted. -/
structure MediaFile where
  mimeType : String
  blobId : Nat
  deriving DecidableEq

/-- The top-level component state of src/App.tsx (`file`, `preview`,
`context`, `analysisState`). -/
structure AppState where
  file : Option MediaFile
  preview : Option String
  context : String
  analysis : AnalysisState
  deriving DecidableEq

/-- JS `String.prototype.startsWith`, embedded on the code-point list. -/
def jsStartsWith (s pre : String) : Bool :=
  pre.toList.isPrefixOf s.toList

/-- MIME prefix accepted as an image, src/App.tsx line 29. -/
def imagePrefix : String := "image/"

/-- MIME prefix accepted as a video, src/App.tsx line 30. -/
def videoPrefix : String := "video/"

/-- The rejection message of `validateAndSetFile`, src/App.tsx line 36. -/
def invalidFileMsg : String :=
  "Invalid file type. Please upload a valid image (JPG, PNG) or video (MP4, WebM)."

/-- `URL.createObjectURL`: the preview URL is opaque; only its presence
matters, so it is synthesized from the blob identity. -/
def mkObjectURL (f : MediaFile) : String := toString f.blobId

/-- `validateAndSetFile` from src/App.tsx lines 28-44: reject a file whose
MIME type starts with neither `image/` nor `video/` (setting an error on the
session, leaving everything else via the `...prev` spread); otherwise accept
it, set the preview, and reset the session record to its initial value. -/
def validateAndSetFile (st : AppState) (f : MediaFile) : AppState :=
  let isImage := jsStartsWith f.mimeType imagePrefix
  let isVideo := jsStartsWith f.mimeType videoPrefix
  if !isImage && !isVideo then
    { st with analysis :=
        { st.analysis with status := .error, error := some invalidFileMsg } }
  else
    { st with
        file := some f
        preview := some (mkObjectURL f)
        analysis := initialAnalysisState }

/-- `reset` from src/App.tsx lines 99-106 (the object-URL revocation and the
file-input DOM reset are side effects outside the state). -/
def resetApp (_st : AppState) : AppState :=
  { file := none, preview := none, context := "", analysis := initialAnalysisState }

/-- The character with code 123 (an opening curly brace). -/
def openBrace : Char := Char.ofNat 123

/-- The character with code 125 (a closing curly brace). -/
def closeBrace : Char := Char.ofNat 125

/-- Index of the first character satisfying `p`, or `none`. -/
def findFirst (p : Char → Bool) : List Char → Option Nat
  | [] => none
  | c :: cs => if p c then some 0 else (findFirst p cs).map (· + 1)

/-- Index of the last character satisfying `p`, or `none`. -/
def findLast (p : Char → Bool) : List Char → Option Nat
  | [] => none
  | c :: cs =>
    match findLast p cs with
    | some j => some (j + 1)
    | none => if p c then some 0 else none

/-- The JSON-span extraction of src/services/geminiService.ts line 125,
`text.match` against the greedy brace pattern (an opening brace, then any
characters, then a closing brace): the regex matches from the first opening
brace that is followed by a later closing brace, and greedily extends to the
last closing brace of the whole text.  Since every closing brace after any
opening brace is also after the first opening brace, this is: the slice from
the first opening brace to the last closing brace, provided the former
precedes the latter, and no match otherwise. -/
def extractJsonSpan (cs : List Char) : Option (List Char) :=
  match findFirst (fun c => c == openBrace) cs, findLast (fun c => c == closeBrace) cs with
  | some i, some j => if i < j then some ((cs.drop i).take (j - i + 1)) else none
  | _, _ => none

/-- The analyze response as consumed by src/services/geminiService.ts: the
free-form text, and the grounding chunks already mapped to `(title, uri)`
pairs (lines 133-142 iterate the metadata in order). -/
structure GenResponse where
  text : List Char
  sources : List GroundingSource

/-- The parse-failure message thrown at src/services/geminiService.ts
line 127. -/
def parseFailureMsg : String := "Failed to parse analysis report from model response."

/-- The fallback message used by `handleAnalyze` when the caught error has an
empty message, src/App.tsx line 89. -/
def analysisFallbackMsg : String := "Analysis failed. Please try a different angle or lighting."

/-- `analyzeWaterImage` from src/services/geminiService.ts lines 122-144,
from the response onwards (the request marshalling, geolocation enrichment
and transport are outside the state).  `parse` stands for `JSON.parse`
followed by the unchecked cast to `AnalysisReport`; a thrown `SyntaxError`
is an `Except.error` carrying the engine's message. -/
def analyzeWaterImage (parse : List Char → Except String AnalysisReport)
    (resp : GenResponse) : Except String (AnalysisReport × List GroundingSource) :=
  match extractJsonSpan resp.text with
  | none => .error parseFailureMsg
  | some span =>
    match parse span with
    | .error e => .error e
    | .ok report => .ok (report, resp.sources)

/-- `handleAnalyze` from src/App.tsx lines 71-92: bail out without a file;
otherwise set status `analyzing` (clearing the error, keeping the rest), then
either store the complete result or mark the error, keeping prior data via
the `...prev` spread.  `err.message || fallback` substitutes the fallback
exactly when the message is the empty string. -/
def handleAnalyze (parse : List Char → Except String AnalysisReport)
    (st : AppState) (resp : GenResponse) : AppState :=
  match st.file with
  | none => st
  | some _ =>
    let st1 := { st with analysis :=
      { st.analysis with status := .analyzing, error := none } }
    match analyzeWaterImage parse resp with
    | .ok (report, sources) =>
      { st1 with analysis :=
          { status := .complete
            data := some report
            resources := none
            sources := sources
            error := none } }
    | .error msg =>
      { st1 with analysis :=
          { st1.analysis with
              status := .error
              error := some (if msg = "" then analysisFallbackMsg else msg) } }

/-- Reassemble a 16-bit two's-complement value from its little-endian bytes,
as `Int16Array` views them. -/
def toInt16 (lo hi : Nat) : Int :=
  let u := lo % 256 + 256 * (hi % 256)
  if u < 32768 then (u : Int) else (u : Int) - 65536

/-- The `new Int16Array(data.buffer)` view of an even-length byte buffer:
consecutive little-endian byte pairs. -/
def bytesToInt16 : List Nat → List Int
  | lo :: hi :: rest => toInt16 lo hi :: bytesToInt16 rest
  | _ => []

/-- Little-endian bytes of one 16-bit signed sample (the encoding direction
of the PCM format that `decodeAudioData` consumes). -/
def encodeInt16LE (s : Int) : List Nat :=
  let u := (s % 65536).toNat
  [u % 256, u / 256]

/-- A sample sequence laid out as a contiguous little-endian 16-bit PCM byte
buffer. -/
def encodePCM (samples : List Int) : List Nat :=
  samples.flatMap encodeInt16LE

/-- Message of the `RangeError` thrown by `new Int16Array(buffer)` when the
buffer's byte length is not a multiple of 2 (ECMAScript, TypedArray
construction from a buffer without an explicit length). -/
def rangeErrorMsg : String := "RangeError: byte length of Int16Array should be a multiple of 2"

/-- Message of the `NotSupportedError` thrown by
`BaseAudioContext.createBuffer` when the requested frame count is zero (Web
Audio: an argument that is negative, zero, or outside its nominal range must
throw). -/
def notSupportedMsg : String := "NotSupportedError: createBuffer requires a positive length"

/-- `decodeAudioData` from src/services/geminiService.ts lines 28-45.
`new Int16Array(data.buffer)` throws a `RangeError` on an odd byte length;
otherwise it views the bytes pairwise little-endian.  `frameCount` is the JS
float quotient `dataInt16.length / numChannels` (exact in `ℚ`); `createBuffer`
converts it WebIDL-style to an unsigned integer by truncation and throws when
that is zero.  The per-channel fill loop runs `i` while `i < frameCount`; a
write `channelData[i] = ...` with `i` at or beyond the buffer's frame count is
a typed-array out-of-bounds store, which is a silent no-op, and every
in-bounds write reads `dataInt16` in bounds (for `i` below the truncated frame
count, `i*numChannels + channel < dataInt16.length`), so the resulting planar
data is exactly the map below. -/
def decodeAudioData (data : List Nat) (numChannels : Nat) :
    Except String (List (List ℚ)) :=
  if data.length % 2 ≠ 0 then .error rangeErrorMsg
  else
    let dataInt16 := bytesToInt16 data
    let frameCount : ℚ := (dataInt16.length : ℚ) / (numChannels : ℚ)
    let bufLen : Nat := Nat.floor frameCount
    if bufLen = 0 then .error notSupportedMsg
    else .ok ((List.range numChannels).map fun channel =>
      (List.range bufLen).map fun i =>
        ((dataInt16.getD (i * numChannels + channel) 0 : ℚ) / 32768))

/-- The speech-synthesis response as consumed by
src/services/geminiService.ts line 170: `inlineAudioData` is the result of
the optional chain `candidates?.[0]?.content?.parts?.[0]?.inlineData?.data`. -/
structure TtsResponse where
  inlineAudioData : Option String
  deriving DecidableEq

/-- The failure message thrown at src/services/geminiService.ts line 171. -/
def audioFailureMsg : String := "Audio synthesis failed."

/-- The notice shown by the `alert` in src/components/ReportView.tsx
line 66. -/
def audioNoticeMsg : String := "Audio synthesis unavailable."

/-- `generateAudioReport` from src/services/geminiService.ts lines 147-173,
from the response onwards (the briefing prompt built from the report and the
transport are outside the state): the guard is the JS truthiness test on the
chained payload, so it throws both when the optional chain yields undefined
and when it yields the empty string (the two falsy values a string-or-
undefined can take); only a nonempty base64 payload is returned. -/
def generateAudioReport (_report : AnalysisReport) (resp : TtsResponse) :
    Except String String :=
  match resp.inlineAudioData with
  | none => .error audioFailureMsg
  | some d => if d = "" then .error audioFailureMsg else .ok d

/-- The playback-relevant component state of src/components/ReportView.tsx:
`isPlaying`, `isAudioLoading`, and the `alert` notice raised in the catch
branch. -/
structure PlayerState where
  isPlaying : Bool
  isAudioLoading : Bool
  notice : Option String
  deriving DecidableEq

/-- `handlePlayAudio` from src/components/ReportView.tsx lines 26-70: a press
while playing stops playback; otherwise the try block runs synthesis, then
base64 decoding and `decodeAudioData` over one channel, then starts playback.
A throw from any stage lands in the same catch: the notice is raised and
playback does not start.  `decodeBase64` (geminiService.ts lines 19-26) wraps
the library `atob` byte loop and is kept abstract as a parameter; the decode
stage is the fallible part of playback setup (for example an odd-length byte
buffer throws there).  The session record is returned unchanged in every
branch: the component never writes it. -/
def handlePlayAudio (decodeBase64 : String → List Nat) (ps : PlayerState)
    (session : AnalysisState) (report : AnalysisReport) (resp : TtsResponse) :
    PlayerState × AnalysisState :=
  if ps.isPlaying then
    ({ isPlaying := false, isAudioLoading := ps.isAudioLoading, notice := none }, session)
  else
    match generateAudioReport report resp with
    | .error _ =>
      ({ isPlaying := false, isAudioLoading := false, notice := some audioNoticeMsg }, session)
    | .ok d =>
      match decodeAudioData (decodeBase64 d) 1 with
      | .error _ =>
        ({ isPlaying := false, isAudioLoading := false, notice := some audioNoticeMsg }, session)
      | .ok _ =>
        ({ isPlaying := true, isAudioLoading := false, notice := none }, session)

/-- The recording hard ceiling in seconds, src/unnamed/part_000 line 161. -/
def autoStopSeconds : ℚ := 10

/-- Elapsed seconds at the k-th firing (1-indexed) of the 100 ms
`setInterval` timer of src/unnamed/part_000 lines 158-164, under the
idealized exact timer (tick k fires exactly 100·k ms after `recorder.start()`). -/
def tickElapsed (k : Nat) : ℚ := (k : ℚ) / 10

/-- Camera recording session state: the start time of an active recording (if
any) and the durations of the clips emitted so far (the clip duration is the
wall-clock time from `recorder.start()` to `recorder.stop()`). -/
structure CamState where
  recording : Option ℚ
  clips : List ℚ
  deriving DecidableEq

/-- One press of the video trigger (src/unnamed/part_000 lines 183-193) at
time `t`, under the idealized exact timer: when idle it starts recording;
when a recording started at `s` is still live it stops early with duration
`t - s`; and when `s + 10 ≤ t` the 100 ms interval tick at `s + 10` has
already auto-stopped the recording (the single-threaded event loop runs the
earlier-scheduled timer callback first), emitting a 10-second clip, so the
press starts a fresh recording. -/
def camTrigger (st : CamState) (t : ℚ) : CamState :=
  match st.recording with
  | none => { st with recording := some t }
  | some s =>
    if s + autoStopSeconds ≤ t then
      { recording := some t, clips := st.clips ++ [autoStopSeconds] }
    else
      { recording := none, clips := st.clips ++ [t - s] }

/-- A whole session of trigger presses in order, starting idle. -/
def camRun (ts : List ℚ) : CamState :=
  ts.foldl camTrigger { recording := none, clips := [] }

/-- All clips a session of trigger presses ever emits: those emitted during
the presses, plus the auto-stopped 10-second clip of a recording still live
at the end. -/
def camFinal (ts : List ℚ) : List ℚ :=
  let st := camRun ts
  st.clips ++ (match st.recording with | some _ => [autoStopSeconds] | none => [])

/-- The clamp the specification describes for pinch-zoom: clamp(x, lo, hi). -/
def clampSpec (x lo hi : ℚ) : ℚ := min (max x lo) hi

/-- `handleTouchMove` from src/unnamed/part_000 lines 88-115, for a
two-finger move with the camera stream live: `zoomCap` is the device zoom
range (the handler does nothing without it), `baseDist` and `baseZoom` were
recorded at gesture start, `dist` is the current finger separation.  A zero
base distance returns before any constraint is applied; otherwise the target
is `baseZoom * (dist / baseDist)` clamped with `Math.min(Math.max(·, min),
max)` and applied.  The result is the zoom passed to `applyConstraints`
(`none` when no constraint-apply call is issued). -/
def handleTouchMove (zoomCap : Option (ℚ × ℚ)) (baseDist baseZoom dist : ℚ) :
    Option ℚ :=
  match zoomCap with
  | none => none
  | some (lo, hi) =>
    if baseDist = 0 then none
    else some (min (max (baseZoom * (dist / baseDist)) lo) hi)

/-- User-visible events that write the session status in src/App.tsx:
file selection (via picker, drop, or camera capture, all through
`validateAndSetFile`), a camera error, pressing Initiate Analysis, the
resolution of an in-flight analysis, and reset. -/
inductive SessionEvent where
  | selectFile (mime : String)
  | cameraError (msg : String)
  | submitStart
  | resolveSuccess
  | resolveFailure
  | reset
  deriving DecidableEq

/-- The status-machine view of an App session: the status, whether a file is
currently held (file intake and the camera are only rendered while no preview
is locked in), and how many analysis calls are in flight (a reset does not
abort the transport, so a late resolution still lands). -/
structure SessionState where
  status : Status
  hasFile : Bool
  pending : Nat
  deriving DecidableEq

/-- One step of the session status machine, each case a status write of
src/App.tsx: `validateAndSetFile` (lines 28-44, only reachable while no file
is locked in), `handleCameraError` (lines 94-97), the start of
`handleAnalyze` (guarded by the button's disabled condition, line 189), the
two resolution writes of `handleAnalyze` (lines 78-91, applied whatever the
current status is, since a reset does not cancel the promise), and `reset`
(lines 99-106). -/
def sessionStep (s : SessionState) (e : SessionEvent) : SessionState :=
  match e with
  | .selectFile mime =>
    if s.hasFile then s
    else if jsStartsWith mime imagePrefix || jsStartsWith mime videoPrefix then
      { status := .idle, hasFile := true, pending := s.pending }
    else
      { s with status := .error }
  | .cameraError _ =>
    if s.hasFile then s else { s with status := .error }
  | .submitStart =>
    if s.hasFile && !(s.status == .analyzing) then
      { s with status := .analyzing, pending := s.pending + 1 }
    else s
  | .resolveSuccess =>
    if 0 < s.pending then { s with status := .complete, pending := s.pending - 1 } else s
  | .resolveFailure =>
    if 0 < s.pending then { s with status := .error, pending := s.pending - 1 } else s
  | .reset => { status := .idle, hasFile := false, pending := s.pending }

/-- The transition list asserted by the specification: idle to analyzing,
analyzing to complete, analyzing to error, and anything to idle. -/
def claimedStatusStep (a b : Status) : Prop :=
  (a = .idle ∧ b = .analyzing) ∨ (a = .analyzing ∧ b = .complete) ∨
  (a = .analyzing ∧ b = .error) ∨ b = .idle

/-- A concrete report value used to instantiate theorems. -/
def sampleReport : AnalysisReport :=
  { observedIndicators := []
    likelyPollutionCategory := ""
    environmentalImpactExplanation := ""
    humanHealthImplications := ""
    environmentalRiskLevel := .unknown
    riskJustification := ""
    recommendedImmediateActions := []
    confidenceLevel := .low
    assessmentLimitations := [] }

/-- A MIME type that is neither image nor video. -/
def mimeTextPlain : String := "text/plain"

/-- An accepted image MIME type. -/
def mimeImagePng : String := "image/png"

/-- The character with code 32 (a space), used as an irrelevant `getD`
default. -/
def padChar : Char := Char.ofNat 32

/-- A stub for `JSON.parse` used to instantiate theorems that hold for every
parse function. -/
def stubParse : List Char → Except String AnalysisReport :=
  fun _ => .ok sampleReport

/-- A response text with no brace at all, for instantiating theorems. -/
def noBraceText : String := "clear water"

/-- A base64 audio payload used to instantiate theorems. -/
def sampleAudioB64 : String := "AAEC"

/-- A stand-in for the base64 byte decoding, used to instantiate theorems
that hold for every decoder: it maps any payload to four zero bytes. -/
def stubDecodeBase64 : String → List Nat := fun _ => [0, 0, 0, 0]

/-- The character list of a text holding two disjoint JSON-like spans:
x, open brace, a, close brace, y, open brace, b, close brace, z. -/
def spanWitnessText : List Char :=
  [Char.ofNat 120, openBrace, Char.ofNat 97, closeBrace,
   Char.ofNat 121, openBrace, Char.ofNat 98, closeBrace, Char.ofNat 122]

/-- The combined span the extraction finds in `spanWitnessText`: from its
first opening brace to its last closing brace. -/
def spanWitnessSpan : List Char :=
  [openBrace, Char.ofNat 97, closeBrace,
   Char.ofNat 121, openBrace, Char.ofNat 98, closeBrace]

/-! ## Theorems -/

/-- C8: for every prior session state, reset sets the file, preview,
free-text context, report, sources, error message and status to their
initial empty or idle values. -/
theorem reset_clears_session (st : AppState) :
    (resetApp st).file = none ∧ (resetApp st).preview = none ∧
    (resetApp st).context = "" ∧ (resetApp st).analysis.status = .idle ∧
    (resetApp st).analysis.data = none ∧ (resetApp st).analysis.sources = [] ∧
    (resetApp st).analysis.error = none := by
  simp [resetApp, initialAnalysisState]

/-- C5: a file whose MIME type begins with neither `image/` nor `video/` is
rejected with a user-visible error, leaving the previously accepted blob,
preview, report and sources untouched; a file whose MIME type begins with
`image/` or `video/` is accepted, discarding any previous report. -/
theorem validate_file_contract (st : AppState) (f : MediaFile) :
    (jsStartsWith f.mimeType imagePrefix = false →
      jsStartsWith f.mimeType videoPrefix = false →
      (validateAndSetFile st f).file = st.file ∧
      (validateAndSetFile st f).preview = st.preview ∧
      (validateAndSetFile st f).analysis.data = st.analysis.data ∧
      (validateAndSetFile st f).analysis.sources = st.analysis.sources ∧
      (validateAndSetFile st f).analysis.status = .error ∧
      (validateAndSetFile st f).analysis.error = some invalidFileMsg) ∧
    (jsStartsWith f.mimeType imagePrefix = true ∨
      jsStartsWith f.mimeType videoPrefix = true →
      (validateAndSetFile st f).file = some f ∧
      (validateAndSetFile st f).preview = some (mkObjectURL f) ∧
      (validateAndSetFile st f).analysis = initialAnalysisState) := by
  constructor
  · intro h1 h2
    simp [validateAndSetFile, h1, h2]
  · intro h
    rcases h with h | h <;> simp [validateAndSetFile, h]

/-- Witness for C5 at concrete inputs: a text/plain file is rejected with the
error set, an image/png file is accepted. -/
theorem validate_file_contract_witness :
    (validateAndSetFile ⟨none, none, "", initialAnalysisState⟩ ⟨mimeTextPlain, 0⟩).analysis.status = .error ∧
    (validateAndSetFile ⟨none, none, "", initialAnalysisState⟩ ⟨mimeImagePng, 1⟩).file = some ⟨mimeImagePng, 1⟩ :=
  ⟨((validate_file_contract ⟨none, none, "", initialAnalysisState⟩ ⟨mimeTextPlain, 0⟩).1
      (by decide) (by decide)).2.2.2.2.1,
   ((validate_file_contract ⟨none, none, "", initialAnalysisState⟩ ⟨mimeImagePng, 1⟩).2
      (Or.inl (by decide))).1⟩

/-- C7: for a pinch gesture with nonzero initial distance the applied zoom is
the clamp of the scaled base zoom to the device range, every value applied
lies inside the range (when the range is non-degenerate), and a zero initial
distance issues no constraint-apply call. -/
theorem pinch_zoom_clamp (lo hi baseDist baseZoom dist : ℚ) :
    (baseDist = 0 → handleTouchMove (some (lo, hi)) baseDist baseZoom dist = none) ∧
    (baseDist ≠ 0 →
      handleTouchMove (some (lo, hi)) baseDist baseZoom dist =
        some (clampSpec (baseZoom * (dist / baseDist)) lo hi)) ∧
    (lo ≤ hi → ∀ z, handleTouchMove (some (lo, hi)) baseDist baseZoom dist = some z →
      lo ≤ z ∧ z ≤ hi) := by
  refine ⟨fun h0 => by simp [handleTouchMove, h0], fun h0 => by simp [handleTouchMove, h0, clampSpec], ?_⟩
  intro hlh z hz
  by_cases h0 : baseDist = 0
  · simp [handleTouchMove, h0] at hz
  · simp [handleTouchMove, h0] at hz
    subst hz
    constructor
    · exact le_min (le_max_right _ _) hlh
    · exact min_le_right _ _

/-- Witness for C7 at concrete inputs: a zero base distance applies nothing,
a doubled finger distance doubles and clamps the zoom. -/
theorem pinch_zoom_clamp_witness :
    handleTouchMove (some (1, 5)) 0 1 8 = none ∧
    handleTouchMove (some (1, 5)) 2 1 8 = some (clampSpec (1 * (8 / 2)) 1 5) :=
  ⟨(pinch_zoom_clamp 1 5 0 1 8).1 rfl,
   (pinch_zoom_clamp 1 5 2 1 8).2.1 (by norm_num)⟩

/-- C9: a speech-synthesis response with no audio payload (the optional chain
yields undefined, or the falsy empty string) makes `generateAudioReport` fail
with the audio-synthesis error; the caller surfaces a notice, playback does
not start, and the session record is unchanged.  A response that does contain
an audio payload (a truthy, hence nonempty, string) yields exactly that
base64 payload.  Whatever happens, the caller leaves the session record
untouched. -/
theorem audio_failure_nonfatal (decodeBase64 : String → List Nat)
    (ps : PlayerState) (session : AnalysisState)
    (report : AnalysisReport) (resp : TtsResponse) :
    (ps.isPlaying = false →
      resp.inlineAudioData = none ∨ resp.inlineAudioData = some "" →
      generateAudioReport report resp = .error audioFailureMsg ∧
      (handlePlayAudio decodeBase64 ps session report resp).1.isPlaying = false ∧
      (handlePlayAudio decodeBase64 ps session report resp).1.notice = some audioNoticeMsg ∧
      (handlePlayAudio decodeBase64 ps session report resp).2 = session) ∧
    (∀ d, d ≠ "" → resp.inlineAudioData = some d →
      generateAudioReport report resp = .ok d) ∧
    (handlePlayAudio decodeBase64 ps session report resp).2 = session := by
  refine ⟨?_, ?_, ?_⟩
  · intro hp hn
    have hgen : generateAudioReport report resp = .error audioFailureMsg := by
      rcases hn with h | h <;> simp [generateAudioReport, h]
    simp [handlePlayAudio, hp, hgen]
  · intro d hd hsome
    simp [generateAudioReport, hsome, hd]
  · unfold handlePlayAudio
    split
    · rfl
    · split
      · rfl
      · split <;> rfl

/-- Witness for C9 at concrete inputs: a missing payload and an empty-string
payload both fail with the notice raised and the session left alone; a
nonempty payload is returned verbatim. -/
theorem audio_failure_nonfatal_witness :
    generateAudioReport sampleReport ⟨none⟩ = .error audioFailureMsg ∧
    (handlePlayAudio stubDecodeBase64 ⟨false, false, none⟩ initialAnalysisState
      sampleReport ⟨none⟩).1.isPlaying = false ∧
    generateAudioReport sampleReport ⟨some ""⟩ = .error audioFailureMsg ∧
    (handlePlayAudio stubDecodeBase64 ⟨false, false, none⟩ initialAnalysisState
      sampleReport ⟨some ""⟩).1.notice = some audioNoticeMsg ∧
    (handlePlayAudio stubDecodeBase64 ⟨false, false, none⟩ initialAnalysisState
      sampleReport ⟨some ""⟩).2 = initialAnalysisState ∧
    generateAudioReport sampleReport ⟨some sampleAudioB64⟩ = .ok sampleAudioB64 := by
  have h1 := (audio_failure_nonfatal stubDecodeBase64 ⟨false, false, none⟩
    initialAnalysisState sampleReport ⟨none⟩).1 rfl (Or.inl rfl)
  have h2 := (audio_failure_nonfatal stubDecodeBase64 ⟨false, false, none⟩
    initialAnalysisState sampleReport ⟨some ""⟩).1 rfl (Or.inr rfl)
  have h3 := (audio_failure_nonfatal stubDecodeBase64 ⟨false, false, none⟩
    initialAnalysisState sampleReport ⟨some sampleAudioB64⟩).2.1 sampleAudioB64 (by decide) rfl
  exact ⟨h1.1, h1.2.1, h2.1, h2.2.2.1, h2.2.2.2, h3⟩

/-- C6 (amended): every status write of the session machine is one of: no
change; to idle (reset, or an accepted file); to analyzing (submit while a
file is held and status is not analyzing); to complete (resolution of an
in-flight analysis, which a reset does not cancel); or to error (failed
resolution, an invalid file selection, or a camera error). -/
theorem session_status_transitions (s : SessionState) (e : SessionEvent) :
    (sessionStep s e).status = s.status ∨
    (sessionStep s e).status = .idle ∨
    ((sessionStep s e).status = .analyzing ∧ e = .submitStart ∧
      s.hasFile = true ∧ s.status ≠ .analyzing) ∨
    ((sessionStep s e).status = .complete ∧ e = .resolveSuccess ∧ 0 < s.pending) ∨
    ((sessionStep s e).status = .error ∧
      (e = .resolveFailure ∨ (∃ m, e = .selectFile m) ∨ ∃ m, e = .cameraError m)) := by
  cases e with
  | selectFile m =>
    by_cases h1 : s.hasFile
    · left; simp [sessionStep, h1]
    · by_cases h2 : (jsStartsWith m imagePrefix || jsStartsWith m videoPrefix) = true
      · right; left; simp [sessionStep, h1, h2]
      · right; right; right; right
        refine ⟨?_, Or.inr (Or.inl ⟨m, rfl⟩)⟩
        simp only [Bool.not_eq_true] at h2
        simp [sessionStep, h1, h2]
  | cameraError m =>
    by_cases h1 : s.hasFile
    · left; simp [sessionStep, h1]
    · right; right; right; right
      exact ⟨by simp [sessionStep, h1], Or.inr (Or.inr ⟨m, rfl⟩)⟩
  | submitStart =>
    by_cases h : (s.hasFile && !(s.status == .analyzing)) = true
    · right; right; left
      refine ⟨by simp [sessionStep, h], rfl, ?_, ?_⟩
      · exact (Bool.and_eq_true .. |>.mp h).1
      · have h2 := (Bool.and_eq_true .. |>.mp h).2
        simpa [Bool.not_eq_true', beq_eq_false_iff_ne] using h2
    · left
      simp only [Bool.not_eq_true] at h
      simp [sessionStep, h]
  | resolveSuccess =>
    by_cases h : 0 < s.pending
    · right; right; right; left
      exact ⟨by simp [sessionStep, h], rfl, h⟩
    · left; simp [sessionStep, h]
  | resolveFailure =>
    by_cases h : 0 < s.pending
    · right; right; right; right
      exact ⟨by simp [sessionStep, h], Or.inl rfl⟩
    · left; simp [sessionStep, h]
  | reset =>
    right; left; simp [sessionStep]

/-- Counterexample to C6 as stated: from an idle session with no file,
selecting a text/plain file writes status error, an idle-to-error transition
that the claimed list (idle to analyzing, analyzing to complete, analyzing to
error, anything to idle) does not contain. -/
theorem session_transition_cex :
    (sessionStep ⟨.idle, false, 0⟩ (.selectFile mimeTextPlain)).status = .error ∧
    ¬ claimedStatusStep .idle .error := by
  constructor
  · decide
  · unfold claimedStatusStep
    decide

/-- The `Int16Array` view of an even-length buffer has one sample per byte
pair (and an odd trailing byte would be outside any pair). -/
theorem bytesToInt16_length : ∀ data : List Nat, (bytesToInt16 data).length = data.length / 2
  | [] => by simp [bytesToInt16]
  | [_] => by simp [bytesToInt16]
  | _ :: _ :: rest => by
    simp only [bytesToInt16, List.length_cons, bytesToInt16_length rest]
    omega

/-- Reassembling the little-endian bytes of an in-range 16-bit signed sample
gives the sample back. -/
theorem toInt16_encodeInt16LE (s : Int) (h1 : -32768 ≤ s) (h2 : s < 32768) :
    toInt16 ((s % 65536).toNat % 256) ((s % 65536).toNat / 256) = s := by
  simp only [toInt16]
  split <;> omega

/-- The PCM byte buffer of a sample list is two bytes per sample. -/
theorem encodePCM_length (samples : List Int) :
    (encodePCM samples).length = 2 * samples.length := by
  induction samples with
  | nil => rfl
  | cons s rest ih =>
    simp only [encodePCM, List.flatMap_cons, encodeInt16LE, List.length_append,
      List.length_cons, List.length_nil] at *
    omega

/-- Viewing the PCM encoding of in-range samples through `Int16Array` gives
the samples back. -/
theorem bytesToInt16_encodePCM (samples : List Int)
    (h : ∀ s ∈ samples, -32768 ≤ s ∧ s < 32768) :
    bytesToInt16 (encodePCM samples) = samples := by
  induction samples with
  | nil => rfl
  | cons s rest ih =>
    have hs := h s (List.mem_cons_self s rest)
    simp only [encodePCM, List.flatMap_cons, encodeInt16LE, List.cons_append,
      List.nil_append, bytesToInt16]
    rw [toInt16_encodeInt16LE s hs.1 hs.2]
    exact congrArg (s :: ·) (ih fun x hx => h x (List.mem_cons_of_mem s hx))

/-- Core shape of a successful decode: for an even byte length with at least
one whole frame, `decodeAudioData` succeeds with the maximal whole number of
frames per channel, each entry the corresponding interleaved sample scaled
down by 32768. -/
theorem decodeAudioData_ok (data : List Nat) (ch : Nat) (hch : 0 < ch)
    (heven : data.length % 2 = 0) (hframe : ch ≤ data.length / 2) :
    decodeAudioData data ch =
      .ok ((List.range ch).map fun channel =>
        (List.range (data.length / 2 / ch)).map fun i =>
          ((bytesToInt16 data).getD (i * ch + channel) 0 : ℚ) / 32768) := by
  have hlen : (bytesToInt16 data).length = data.length / 2 := bytesToInt16_length data
  have hfloor : Nat.floor (((bytesToInt16 data).length : ℚ) / (ch : ℚ)) = data.length / 2 / ch := by
    rw [hlen, Nat.floor_div_nat, Nat.floor_natCast]
  have hpos : data.length / 2 / ch ≠ 0 := by
    have := (Nat.one_le_div_iff hch).mpr hframe
    omega
  simp only [decodeAudioData, hfloor]
  rw [if_neg (by omega), if_neg hpos]

/-- C3 (amended): for every byte buffer of even length holding at least one
whole frame, `decodeAudioData` does not raise and decodes exactly the maximal
whole number of frames, silently truncating a trailing partial frame (the
byte length need not be divisible by numChannels times 2).  A buffer of odd
byte length, by contrast, raises a RangeError from the `Int16Array`
construction, and a buffer without a whole frame raises from `createBuffer`. -/
theorem decode_truncates_partial_frame (data : List Nat) (ch : Nat) (hch : 0 < ch)
    (heven : data.length % 2 = 0) (hframe : ch ≤ data.length / 2) :
    decodeAudioData data ch =
      .ok ((List.range ch).map fun channel =>
        (List.range (data.length / 2 / ch)).map fun i =>
          ((bytesToInt16 data).getD (i * ch + channel) 0 : ℚ) / 32768) :=
  decodeAudioData_ok data ch hch heven hframe

/-- Counterexample to C3 as stated: the one-byte buffer has length 1, not
divisible by numChannels times 2 for one channel, and `decodeAudioData`
raises (the `Int16Array` view of an odd-length buffer throws a RangeError)
instead of decoding zero frames without an error. -/
theorem decode_odd_length_raises : decodeAudioData [0] 1 = .error rangeErrorMsg := rfl

/-- Witness for C3 at a concrete input: six zero bytes over two channels (six
is not divisible by four) decode without an error to one frame per channel. -/
theorem decode_truncates_partial_frame_witness :
    decodeAudioData [0, 0, 0, 0, 0, 0] 2 =
      .ok ((List.range 2).map fun channel =>
        (List.range 1).map fun i =>
          ((bytesToInt16 [0, 0, 0, 0, 0, 0]).getD (i * 2 + channel) 0 : ℚ) / 32768) :=
  decode_truncates_partial_frame [0, 0, 0, 0, 0, 0] 2 (by decide) (by decide) (by decide)

/-- C2 (amended): decoding the little-endian interleaved PCM encoding of any
nonempty in-range sample sequence whose length is a multiple of the channel
count yields a planar buffer with frame count equal to the sample count
divided by the channel count, channel c at frame i holding the sample at
interleaved index i times numChannels plus c, divided by 32768 (exactly, in
ℚ). -/
theorem decode_encode_roundtrip (samples : List Int) (ch : Nat) (hch : 0 < ch)
    (hdvd : ch ∣ samples.length) (hne : samples ≠ [])
    (hrange : ∀ s ∈ samples, -32768 ≤ s ∧ s < 32768) :
    decodeAudioData (encodePCM samples) ch =
      .ok ((List.range ch).map fun channel =>
        (List.range (samples.length / ch)).map fun i =>
          ((samples.getD (i * ch + channel) 0 : ℚ) / 32768)) := by
  have hlen := encodePCM_length samples
  have heven : (encodePCM samples).length % 2 = 0 := by omega
  have h2 : (encodePCM samples).length / 2 = samples.length := by omega
  have hframe : ch ≤ (encodePCM samples).length / 2 := by
    rw [h2]
    exact Nat.le_of_dvd (List.length_pos.mpr hne) hdvd
  rw [decodeAudioData_ok (encodePCM samples) ch hch heven hframe,
    bytesToInt16_encodePCM samples hrange, h2]

/-- A decode whose truncated frame count is zero raises from `createBuffer`. -/
theorem decodeAudioData_err_zero (data : List Nat) (ch : Nat)
    (heven : data.length % 2 = 0) (hz : data.length / 2 / ch = 0) :
    decodeAudioData data ch = .error notSupportedMsg := by
  have hfloor : Nat.floor (((bytesToInt16 data).length : ℚ) / (ch : ℚ)) = data.length / 2 / ch := by
    rw [bytesToInt16_length, Nat.floor_div_nat, Nat.floor_natCast]
  simp only [decodeAudioData, hfloor]
  rw [if_neg (by omega), if_pos hz]

/-- Counterexample to C2 as stated: for the empty sample sequence (a finite
sequence) the code does not return a zero-frame planar buffer: `createBuffer`
throws on a zero frame count. -/
theorem decode_empty_sequence_raises :
    decodeAudioData (encodePCM []) 1 = .error notSupportedMsg :=
  decodeAudioData_err_zero (encodePCM []) 1 (by decide) (by decide)

/-- Witness for C2 at a concrete input: the two-sample mono sequence 1000,
-1000 decodes back to those samples over 32768. -/
theorem decode_encode_roundtrip_witness :
    decodeAudioData (encodePCM [1000, -1000]) 1 =
      .ok ((List.range 1).map fun channel =>
        (List.range (([1000, -1000] : List Int).length / 1)).map fun i =>
          ((([1000, -1000] : List Int).getD (i * 1 + channel) 0 : ℚ) / 32768)) :=
  decode_encode_roundtrip [1000, -1000] 1 (by decide) (by decide) (by decide) (by decide)

/-- A trigger press never lengthens any already-emitted clip, and any clip it
emits lasts at most the auto-stop ceiling. -/
theorem camTrigger_clips_le (st : CamState) (t : ℚ)
    (h : ∀ d ∈ st.clips, d ≤ autoStopSeconds) :
    ∀ d ∈ (camTrigger st t).clips, d ≤ autoStopSeconds := by
  cases hrec : st.recording with
  | none =>
    simp only [camTrigger, hrec]
    simpa using h
  | some s =>
    simp only [camTrigger, hrec]
    split
    next hle =>
      intro d hd
      rcases List.mem_append.mp hd with h1 | h2
      · exact h d h1
      · simp only [List.mem_singleton] at h2
        exact h2 ▸ le_refl _
    next hgt =>
      intro d hd
      rcases List.mem_append.mp hd with h1 | h2
      · exact h d h1
      · simp only [List.mem_singleton] at h2
        subst h2
        have hlt : t < s + autoStopSeconds := lt_of_not_ge hgt
        linarith

/-- Folding trigger presses over a state with short clips keeps all clips
short. -/
theorem camRun_clips_le :
    ∀ (ts : List ℚ) (st : CamState), (∀ d ∈ st.clips, d ≤ autoStopSeconds) →
      ∀ d ∈ (List.foldl camTrigger st ts).clips, d ≤ autoStopSeconds
  | [], _, h => h
  | t :: ts, st, h => camRun_clips_le ts (camTrigger st t) (camTrigger_clips_le st t h)

/-- C4: every clip a recording session ever emits lasts at most 10 seconds,
whatever the trigger times; the 100 ms timer satisfies its stop condition
first at tick 100, where elapsed is exactly 10.0; a trigger press while a
recording is live and under the ceiling stops it early and emits what was
captured; and once the ceiling is reached, the auto-stop has emitted a
10-second clip. -/
theorem recording_capped_at_ten (ts : List ℚ) :
    (∀ d ∈ camFinal ts, d ≤ autoStopSeconds) ∧
    (∀ k : Nat, autoStopSeconds ≤ tickElapsed k ↔ 100 ≤ k) ∧
    (∀ (st : CamState) (s t : ℚ), st.recording = some s → t < s + autoStopSeconds →
      camTrigger st t = { recording := none, clips := st.clips ++ [t - s] }) ∧
    (∀ (st : CamState) (s t : ℚ), st.recording = some s → s + autoStopSeconds ≤ t →
      camTrigger st t = { recording := some t, clips := st.clips ++ [autoStopSeconds] }) := by
  refine ⟨?_, ?_, ?_, ?_⟩
  · intro d hd
    unfold camFinal at hd
    rcases List.mem_append.mp hd with h1 | h2
    · exact camRun_clips_le ts _ (by simp) d h1
    · rcases hrec : (camRun ts).recording with _ | s <;> rw [hrec] at h2 <;> simp at h2
      exact h2 ▸ le_refl _
  · intro k
    rw [autoStopSeconds, tickElapsed, le_div_iff₀ (by norm_num)]
    rw [show (10 : ℚ) * 10 = ((100 : Nat) : ℚ) by norm_num]
    exact_mod_cast Iff.rfl
  · intro st s t hrec hlt
    simp only [camTrigger, hrec]
    rw [if_neg (by linarith)]
  · intro st s t hrec hle
    simp only [camTrigger, hrec]
    rw [if_pos hle]

/-- Witness for C4 at concrete inputs: an early stop at 3 seconds emits a
3-second clip, tick 100 is where elapsed first reaches 10, and a live
recording past the ceiling has auto-stopped with a 10-second clip. -/
theorem recording_capped_at_ten_witness :
    (3 : ℚ) ≤ autoStopSeconds ∧
    (autoStopSeconds ≤ tickElapsed 100 ↔ 100 ≤ 100) ∧
    camTrigger ⟨some 0, []⟩ 3 = ⟨none, [(3 : ℚ) - 0]⟩ ∧
    camTrigger ⟨some 0, []⟩ 12 = ⟨some 12, [autoStopSeconds]⟩ :=
  ⟨(recording_capped_at_ten [0, 3]).1 3
      (by norm_num [camFinal, camRun, camTrigger, autoStopSeconds, List.foldl]),
   (recording_capped_at_ten []).2.1 100,
   (recording_capped_at_ten []).2.2.1 ⟨some 0, []⟩ 0 3 rfl (by norm_num [autoStopSeconds]),
   (recording_capped_at_ten []).2.2.2 ⟨some 0, []⟩ 0 12 rfl (by norm_num [autoStopSeconds])⟩

/-- A found first index is in bounds and hits a matching character. -/
theorem findFirst_eq_some {p : Char → Bool} :
    ∀ {cs : List Char} {i : Nat}, findFirst p cs = some i →
      i < cs.length ∧ p (cs.getD i padChar) = true := by
  intro cs
  induction cs with
  | nil => intro i h; simp [findFirst] at h
  | cons c cs ih =>
    intro i h
    simp only [findFirst] at h
    by_cases hp : p c
    · rw [if_pos hp] at h
      cases h
      exact ⟨Nat.succ_pos _, by simpa [List.getD_cons_zero] using hp⟩
    · rw [if_neg hp] at h
      rcases Option.map_eq_some'.mp h with ⟨i', hi', rfl⟩
      obtain ⟨h1, h2⟩ := ih hi'
      exact ⟨Nat.succ_lt_succ h1, by simpa [List.getD_cons_succ] using h2⟩

/-- No character strictly before the found first index matches. -/
theorem findFirst_take_false {p : Char → Bool} :
    ∀ {cs : List Char} {i : Nat}, findFirst p cs = some i →
      ∀ c ∈ cs.take i, p c = false := by
  intro cs
  induction cs with
  | nil => intro i _ c hc; simp at hc
  | cons a cs ih =>
    intro i h c hc
    simp only [findFirst] at h
    by_cases hp : p a
    · rw [if_pos hp] at h
      cases h
      simp at hc
    · rw [if_neg hp] at h
      rcases Option.map_eq_some'.mp h with ⟨i', hi', rfl⟩
      rcases List.mem_cons.mp (by simpa [List.take_cons] using hc) with rfl | hc'
      · exact Bool.eq_false_iff.mpr hp
      · exact ih hi' c hc'

/-- When no last index is found, no character matches. -/
theorem findLast_eq_none {p : Char → Bool} :
    ∀ {cs : List Char}, findLast p cs = none → ∀ c ∈ cs, p c = false := by
  intro cs
  induction cs with
  | nil => intro _ c hc; simp at hc
  | cons a cs ih =>
    intro h c hc
    simp only [findLast] at h
    cases hL : findLast p cs with
    | some j => rw [hL] at h; simp at h
    | none =>
      rw [hL] at h
      by_cases hp : p a
      · rw [if_pos hp] at h; simp at h
      · rcases List.mem_cons.mp hc with rfl | hc'
        · exact Bool.eq_false_iff.mpr hp
        · exact ih hL c hc'

/-- A found last index is in bounds and hits a matching character. -/
theorem findLast_eq_some {p : Char → Bool} :
    ∀ {cs : List Char} {j : Nat}, findLast p cs = some j →
      j < cs.length ∧ p (cs.getD j padChar) = true := by
  intro cs
  induction cs with
  | nil => intro j h; simp [findLast] at h
  | cons a cs ih =>
    intro j h
    simp only [findLast] at h
    cases hL : findLast p cs with
    | some j' =>
      rw [hL] at h
      cases h
      obtain ⟨h1, h2⟩ := ih hL
      exact ⟨Nat.succ_lt_succ h1, by simpa [List.getD_cons_succ] using h2⟩
    | none =>
      rw [hL] at h
      by_cases hp : p a
      · rw [if_pos hp] at h
        cases h
        exact ⟨Nat.succ_pos _, by simpa [List.getD_cons_zero] using hp⟩
      · rw [if_neg hp] at h; simp at h

/-- No character strictly after the found last index matches. -/
theorem findLast_drop_false {p : Char → Bool} :
    ∀ {cs : List Char} {j : Nat}, findLast p cs = some j →
      ∀ c ∈ cs.drop (j + 1), p c = false := by
  intro cs
  induction cs with
  | nil => intro j _ c hc; simp at hc
  | cons a cs ih =>
    intro j h c hc
    simp only [findLast] at h
    cases hL : findLast p cs with
    | some j' =>
      rw [hL] at h
      cases h
      exact ih hL c (by simpa [List.drop_succ_cons] using hc)
    | none =>
      rw [hL] at h
      by_cases hp : p a
      · rw [if_pos hp] at h
        cases h
        exact findLast_eq_none hL c (by simpa using hc)
      · rw [if_neg hp] at h; simp at h

/-- Decomposition of a successful span extraction into its match data. -/
theorem extractJsonSpan_eq_some {cs s : List Char} (h : extractJsonSpan cs = some s) :
    ∃ i j, findFirst (fun c => c == openBrace) cs = some i ∧
      findLast (fun c => c == closeBrace) cs = some j ∧ i < j ∧
      s = (cs.drop i).take (j - i + 1) := by
  unfold extractJsonSpan at h
  cases hF : findFirst (fun c => c == openBrace) cs with
  | none => rw [hF] at h; simp at h
  | some i =>
    cases hL : findLast (fun c => c == closeBrace) cs with
    | none => rw [hF, hL] at h; simp at h
    | some j =>
      rw [hF, hL] at h
      change (if i < j then some (List.take (j - i + 1) (List.drop i cs)) else none) = some s at h
      by_cases hij : i < j
      · rw [if_pos hij] at h
        cases h
        exact ⟨i, j, rfl, rfl, hij, rfl⟩
      · rw [if_neg hij] at h; simp at h

/-- C1: for every service response text with no opening brace followed by a
later closing brace, the analyze operation fails with the analysis-failure
error, and the session state after the failed submit has status error and a
non-null error message (namely that error). -/
theorem analyze_no_span_sets_error
    (parse : List Char → Except String AnalysisReport)
    (st : AppState) (f : MediaFile) (resp : GenResponse)
    (hf : st.file = some f)
    (h : ∀ i, i < resp.text.length → ∀ j, j < resp.text.length → i < j →
      ¬(resp.text.getD i padChar = openBrace ∧ resp.text.getD j padChar = closeBrace)) :
    analyzeWaterImage parse resp = .error parseFailureMsg ∧
    (handleAnalyze parse st resp).analysis.status = .error ∧
    (handleAnalyze parse st resp).analysis.error = some parseFailureMsg := by
  have hspan : extractJsonSpan resp.text = none := by
    cases hE : extractJsonSpan resp.text with
    | none => rfl
    | some s =>
      exfalso
      obtain ⟨i, j, hF, hL, hij, _⟩ := extractJsonSpan_eq_some hE
      obtain ⟨hi, hpi⟩ := findFirst_eq_some hF
      obtain ⟨hj, hpj⟩ := findLast_eq_some hL
      exact h i hi j hj hij ⟨by simpa using hpi, by simpa using hpj⟩
  have hA : analyzeWaterImage parse resp = .error parseFailureMsg := by
    unfold analyzeWaterImage
    rw [hspan]
  have hne : ¬(parseFailureMsg = "") := by decide
  refine ⟨hA, ?_, ?_⟩ <;> simp [handleAnalyze, hf, hA, hne]

/-- Witness for C1 at concrete inputs: a brace-free response text errors and
drives a file-holding session to status error with the message set. -/
theorem analyze_no_span_sets_error_witness :
    analyzeWaterImage stubParse ⟨noBraceText.toList, []⟩ = .error parseFailureMsg ∧
    (handleAnalyze stubParse ⟨some ⟨mimeImagePng, 0⟩, none, "", initialAnalysisState⟩
      ⟨noBraceText.toList, []⟩).analysis.status = .error ∧
    (handleAnalyze stubParse ⟨some ⟨mimeImagePng, 0⟩, none, "", initialAnalysisState⟩
      ⟨noBraceText.toList, []⟩).analysis.error = some parseFailureMsg :=
  analyze_no_span_sets_error stubParse
    ⟨some ⟨mimeImagePng, 0⟩, none, "", initialAnalysisState⟩
    ⟨mimeImagePng, 0⟩ ⟨noBraceText.toList, []⟩ rfl (by decide)

/-- C10: a successfully extracted JSON span starts with an opening brace,
ends with a closing brace, and is exactly the contiguous slice of the
response text from its first opening brace to its last closing brace (no
opening brace precedes it, no closing brace follows it); whenever the analyze
operation succeeds on such a text, the parse was attempted on that whole
combined span and accepted it. -/
theorem json_span_first_to_last (cs s : List Char) (h : extractJsonSpan cs = some s) :
    ∃ pre post, cs = pre ++ s ++ post ∧
      (∀ c ∈ pre, c ≠ openBrace) ∧ (∀ c ∈ post, c ≠ closeBrace) ∧
      s.getD 0 padChar = openBrace ∧ s.getLastD padChar = closeBrace ∧
      (∀ (parse : List Char → Except String AnalysisReport) (r : AnalysisReport)
        (srcs : List GroundingSource) (resp : GenResponse), resp.text = cs →
        analyzeWaterImage parse resp = .ok (r, srcs) → parse s = .ok r) := by
  obtain ⟨i, j, hF, hL, hij, hs⟩ := extractJsonSpan_eq_some h
  obtain ⟨hi, hpi⟩ := findFirst_eq_some hF
  obtain ⟨hj, hpj⟩ := findLast_eq_some hL
  have hiB : cs.getD i padChar = openBrace := by simpa using hpi
  have hjB : cs.getD j padChar = closeBrace := by simpa using hpj
  have hslen : s.length = j - i + 1 := by
    rw [hs, List.length_take, List.length_drop]
    omega
  refine ⟨cs.take i, cs.drop (j + 1), ?_, ?_, ?_, ?_, ?_, ?_⟩
  · rw [hs, List.append_assoc]
    conv_lhs => rw [← List.take_append_drop i cs]
    congr 1
    conv_lhs => rw [← List.take_append_drop (j - i + 1) (cs.drop i)]
    congr 1
    rw [List.drop_drop]
    congr 1
    omega
  · intro c hc
    simpa using findFirst_take_false hF c hc
  · intro c hc
    simpa using findLast_drop_false hL c hc
  · rw [hs, List.getD_eq_getElem?_getD, List.getElem?_take, if_pos (by omega),
      List.getElem?_drop, Nat.add_zero, List.getElem?_eq_getElem hi]
    rw [List.getD_eq_getElem?_getD, List.getElem?_eq_getElem hi] at hiB
    simpa using hiB
  · rw [List.getLastD_eq_getLast?, List.getLast?_eq_getElem?, hslen]
    have he : j - i + 1 - 1 = j - i := by omega
    rw [he, hs, List.getElem?_take, if_pos (by omega), List.getElem?_drop]
    have hij' : i + (j - i) = j := by omega
    rw [hij', List.getElem?_eq_getElem hj]
    rw [List.getD_eq_getElem?_getD, List.getElem?_eq_getElem hj] at hjB
    simpa using hjB
  · intro parse r srcs resp hresp hok
    simp only [analyzeWaterImage, hresp, h] at hok
    cases hp : parse s with
    | error e =>
      simp only [hp] at hok
      exact Except.noConfusion hok
    | ok r' =>
      simp only [hp, Except.ok.injEq, Prod.mk.injEq] at hok
      rw [hok.1]

/-- Witness for C10 at a concrete input: in a text holding two disjoint
JSON-like objects, the extracted span runs from the first opening brace to
the last closing brace, covering both objects and the text between them. -/
theorem json_span_first_to_last_witness :
    ∃ pre post, spanWitnessText = pre ++ spanWitnessSpan ++ post ∧
      (∀ c ∈ pre, c ≠ openBrace) ∧ (∀ c ∈ post, c ≠ closeBrace) ∧
      spanWitnessSpan.getD 0 padChar = openBrace ∧
      spanWitnessSpan.getLastD padChar = closeBrace ∧
      (∀ (parse : List Char → Except String AnalysisReport) (r : AnalysisReport)
        (srcs : List GroundingSource) (resp : GenResponse), resp.text = spanWitnessText →
        analyzeWaterImage parse resp = .ok (r, srcs) → parse spanWitnessSpan = .ok r) :=
  json_span_first_to_last spanWitnessText spanWitnessSpan (by decide)
